import Mathlib

/-!
Shallow embedding of `src/nosql/execute_cypher.py` (class `Neo4jQuerier`).

The Python class wraps the external neo4j driver.  The embedding models the
observable interaction with that driver:

* the index catalogue of the database is a list of index names (Neo4j enforces
  name uniqueness, so a successful create never duplicates a name);
* `session.run` on a Cypher statement is interpreted per statement kind:
  `DROP INDEX n IF EXISTS` removes `n` (never a not-found error),
  `CREATE INDEX n IF NOT EXISTS` adds `n` unless present (never an
  already-exists error), `CREATE FULLTEXT INDEX n` (no IF NOT EXISTS in the
  source) fails when `n` exists, and an ordinary query is answered by the
  `runQuery` function of the environment;
* the environment may additionally inject a backend failure (connectivity,
  permissions, ...) on any index statement via `inj`, modelling the
  exceptions the try/except blocks in the source are written for;
* `time.time()` readings are an environment-supplied stream of integer
  timestamps indexed by a tick counter (the float clock abstracted to `Int`);
* the closed flag of the driver: per the neo4j driver contract, `driver.close()`
  marks the driver closed and `driver.session()` on a closed driver raises
  (the `ClosedHandleError` of the spec); the Python class itself adds no state.

Every method returns `(outcome, final state, trace)`: the outcome is
`Except Err α` (an `.error` is an exception escaping the method), the trace
records every statement submitted to the backend and every console line.
-/

/-- A Cypher value (the payload type is irrelevant to the claims; a small
concrete inductive keeps everything decidable and executable). -/
inductive Value where
  | int (n : Int)
  | str (s : String)
  | bool (b : Bool)
  | null
deriving DecidableEq, Repr

/-- One backend record: ordered (column name, value) pairs. -/
abbrev Rec := List (String × Value)

/-- A parameter mapping, as passed to `session.run`. -/
abbrev Params := List (String × Value)

/-- Insert one pair into a Python dict modelled as an ordered assoc list:
an existing key keeps its position and takes the new value, a new key is
appended. -/
def dictInsert (d : List (String × Value)) (kv : String × Value) :
    List (String × Value) :=
  if d.any (fun p => p.1 = kv.1) then
    d.map (fun p => if p.1 = kv.1 then (p.1, kv.2) else p)
  else d ++ [kv]

/-- `dict(record)` on one record. -/
def toDict (r : Rec) : Rec := r.foldl dictInsert []

/-- The Cypher statements the source submits via `session.run`. -/
inductive Stmt where
  | dropIfExists (name : String)
  | createIfNotExists (name : String)
  | createFulltext (name : String)
  | query (text : String) (params : Params)
deriving DecidableEq, Repr

/-- Exceptions escaping a method of the class. -/
inductive Err where
  | closedHandle
  | backend (msg : String)
deriving DecidableEq, Repr

/-- `str(e)` of an exception. -/
def errMsg : Err → String
  | .closedHandle => "Driver closed"
  | .backend m => m

/-- Observable events: a statement submitted to the backend, a plain console
line, a per-query timing line, or a per-query error report from a bench loop. -/
inductive Ev where
  | stmt (st : Stmt)
  | print (msg : String)
  | timing (name : String) (t : Int)
  | errorLine (name : String) (msg : String)
deriving DecidableEq, Repr

/-- Harness state: the closed flag of the driver, the index catalogue
and the clock tick counter. -/
structure HState where
  closed : Bool
  indexes : List String
  tick : Nat
deriving DecidableEq, Repr

/-- The environment (backend and clock): `runQuery` answers ordinary queries,
`inj` optionally injects a backend failure on an index statement, `clock`
supplies the successive `time.time()` readings. -/
structure Env where
  runQuery : String → Params → Except String (List Rec)
  inj : Stmt → Option String
  clock : Nat → Int

/-- Semantics of `session.run` on a single statement. -/
def runStmt (env : Env) (st : Stmt) (s : HState) :
    Except String (List Rec × HState) :=
  match st with
  | .query q ps => (env.runQuery q ps).map (fun recs => (recs, s))
  | .dropIfExists n =>
    match env.inj st with
    | some e => .error e
    | none => .ok ([], { s with indexes := s.indexes.filter (· ≠ n) })
  | .createIfNotExists n =>
    match env.inj st with
    | some e => .error e
    | none =>
      if n ∈ s.indexes then .ok ([], s)
      else .ok ([], { s with indexes := s.indexes ++ [n] })
  | .createFulltext n =>
    match env.inj st with
    | some e => .error e
    | none =>
      if n ∈ s.indexes then
        .error ("An equivalent index already exists: " ++ n)
      else .ok ([], { s with indexes := s.indexes ++ [n] })

/-- Run a list of statements in order, stopping at the first failure (the
body of a single Python `try:` block).  The trace holds every statement
submitted, including a failing one. -/
def runStmts (env : Env) (sts : List Stmt) (s : HState) :
    Except String Unit × HState × List Ev :=
  match sts with
  | [] => (.ok (), s, [])
  | st :: rest =>
    match runStmt env st s with
    | .error e => (.error e, s, [.stmt st])
    | .ok (_, s1) =>
      let r := runStmts env rest s1
      (r.1, r.2.1, .stmt st :: r.2.2)

/-- The five index names hard-coded in `drop_indexes` (in source order). -/
def dropNames : List String :=
  ["book_title_index", "book_year_index", "book_format_index",
   "book_lang_pages_index", "book_ebook_index"]

/-- The four property-index names `create_indexes` creates after the
full-text index (in source order). -/
def propertyIndexNames : List String :=
  ["book_year_index", "book_format_index", "book_lang_pages_index",
   "book_ebook_index"]

/-- `close`: releases the driver (`self.driver.close()`). -/
def close (s : HState) : HState := { s with closed := true }

/-- `measure_query_time(query, params=None)`: opens a session (raises if the
driver is closed), reads the clock, submits the query with `params or {}`,
materializes the records, reads the clock again, and returns the rows as
dicts with the elapsed time. -/
def measure_query_time (env : Env) (q : String) (params : Option Params)
    (s : HState) : Except Err (List Rec × Int) × HState × List Ev :=
  if s.closed then (.error .closedHandle, s, [])
  else
    let ps := params.getD []
    let start := env.clock s.tick
    let s1 : HState := { s with tick := s.tick + 1 }
    match runStmt env (.query q ps) s1 with
    | .error e => (.error (.backend e), s1, [.stmt (.query q ps)])
    | .ok (recs, s2) =>
      let stop := env.clock s2.tick
      (.ok (recs.map toDict, stop - start),
       { s2 with tick := s2.tick + 1 }, [.stmt (.query q ps)])

/-- `drop_indexes`: opens a session (raises if closed), then runs the five
`DROP INDEX ... IF EXISTS` statements inside one `try:`; any exception is
caught and printed, ending the batch. -/
def drop_indexes (env : Env) (s : HState) :
    Except Err Unit × HState × List Ev :=
  if s.closed then (.error .closedHandle, s, [])
  else
    match runStmts env (dropNames.map Stmt.dropIfExists) s with
    | (.ok _, s1, tr) => (.ok (), s1, tr)
    | (.error e, s1, tr) =>
      (.ok (), s1, tr ++ [.print ("Error dropping indexes: " ++ e)])

/-- The `CREATE INDEX ... IF NOT EXISTS` steps of `create_indexes`, each
followed by its success print; none is inside a `try:`, so the first failure
escapes and the remaining steps are not attempted. -/
def createSteps (env : Env) (ns : List String) (s : HState) :
    Except String Unit × HState × List Ev :=
  match ns with
  | [] => (.ok (), s, [])
  | n :: rest =>
    match runStmt env (.createIfNotExists n) s with
    | .error e => (.error e, s, [.stmt (.createIfNotExists n)])
    | .ok (_, s1) =>
      let r := createSteps env rest s1
      (r.1, r.2.1,
       .stmt (.createIfNotExists n) :: .print ("created index: " ++ n) :: r.2.2)

/-- `create_indexes`: opens a session (raises if closed); drops the
full-text index inside its own `try:` (failure printed), creates the
full-text index inside its own `try:` (failure printed, success printed),
then runs the four uncaught property-index creates. -/
def create_indexes (env : Env) (s : HState) :
    Except Err Unit × HState × List Ev :=
  if s.closed then (.error .closedHandle, s, [])
  else
    let ftDrop :=
      match runStmt env (.dropIfExists "book_title_index") s with
      | .ok (_, s1) => (s1, [Ev.stmt (.dropIfExists "book_title_index")])
      | .error e =>
        (s, [Ev.stmt (.dropIfExists "book_title_index"),
             Ev.print ("Error dropping index: " ++ e)])
    let ftCreate :=
      match runStmt env (.createFulltext "book_title_index") ftDrop.1 with
      | .ok (_, s2) =>
        (s2, [Ev.stmt (.createFulltext "book_title_index"),
              Ev.print "created full-text index: book_title_index"])
      | .error e =>
        (ftDrop.1, [Ev.stmt (.createFulltext "book_title_index"),
                    Ev.print ("Error creating full-text index: " ++ e)])
    match createSteps env propertyIndexNames ftCreate.1 with
    | (.ok _, s3, tr3) => (.ok (), s3, ftDrop.2 ++ ftCreate.2 ++ tr3)
    | (.error e, s3, tr3) =>
      (.error (.backend e), s3, ftDrop.2 ++ ftCreate.2 ++ tr3)

/-- The six named queries of `demonstrate_queries`, in dict insertion order
(query text flattened to one line). -/
def queriesList : List (String × String) :=
  [("basic search on attribute value",
    "MATCH (b:Book) WHERE b.publication_year > 2023 RETURN b.title, b.publication_year"),
   ("aggregation paperback",
    "MATCH (b:Book) WHERE b.format = \"Paperback\" RETURN count(b)"),
   ("aggregation hardcover",
    "MATCH (b:Book) WHERE b.format = \"Hardcover\" RETURN count(b)"),
   ("aggregation ebook",
    "MATCH (b:Book) WHERE b.is_ebook = true RETURN count(b) as ebookCount"),
   ("top n entities satisfying a criteria, sorted by an attribute",
    "MATCH (b:Book) WHERE b.language_code = \"en \" and b.publication_year IS NOT NULL and b.page_count > 10000 RETURN b.title, b.publication_year, b.language_code ORDER BY b.publication_year DESC LIMIT 300"),
   ("group books by year of publication",
    "MATCH (b:Book) WHERE b.publication_year IS NOT NULL RETURN b.publication_year as year, count(*) as number_of_books ORDER BY year DESC")]

/-- The full-text query text, flattened to one line. -/
def fulltextText : String :=
  "CALL db.index.fulltext.queryNodes(\x27book_title_index\x27, $search_term) YIELD node, score WHERE node.title IS NOT NULL RETURN node.title as title, score LIMIT 5"

/-- The full-text query entry (name, text). -/
def fulltextQueryList : List (String × String) :=
  [("full text search", fulltextText)]

/-- The parameter mapping passed to the full-text query. -/
def fulltextParams : Params := [("search_term", Value.str "python programming")]

/-- One benchmark loop of `demonstrate_queries`: for each (name, query),
`try:` time it and print the timing `except:` print the error; either way
the loop continues with the next entry. -/
def benchLoop (env : Env) (params : Option Params)
    (qs : List (String × String)) (s : HState) : HState × List Ev :=
  match qs with
  | [] => (s, [])
  | (name, q) :: rest =>
    let m := measure_query_time env q params s
    let ev :=
      match m.1 with
      | .ok (_, t) => Ev.timing name t
      | .error e => Ev.errorLine name (errMsg e)
    let r := benchLoop env params rest m.2.1
    (r.1, m.2.2 ++ [ev] ++ r.2)

/-- `demonstrate_queries`: drop all indexes (uncaught), run the before
phase, create all indexes (uncaught), run the after phase, then run the
full-text query once with its parameters. -/
def demonstrate_queries (env : Env) (s : HState) :
    Except Err Unit × HState × List Ev :=
  let tr0 := [Ev.print "dropping existing indexes..."]
  match drop_indexes env s with
  | (.error e, s1, tr1) => (.error e, s1, tr0 ++ tr1)
  | (.ok _, s1, tr1) =>
    let before := benchLoop env none queriesList s1
    match create_indexes env before.1 with
    | (.error e, s3, tr3) =>
      (.error e, s3,
       tr0 ++ tr1 ++ [.print "\nbefore creating indexes:"] ++ before.2 ++
       [.print "\ncreating indexes..."] ++ tr3)
    | (.ok _, s3, tr3) =>
      let after := benchLoop env none queriesList s3
      let ft := benchLoop env (some fulltextParams) fulltextQueryList after.1
      (.ok (), ft.1,
       tr0 ++ tr1 ++ [.print "\nbefore creating indexes:"] ++ before.2 ++
       [.print "\ncreating indexes..."] ++ tr3 ++
       [.print "\nafter creating indexes:"] ++ after.2 ++ ft.2)

/-- The statements a trace submitted to the backend, in order. -/
def stmtsOf (tr : List Ev) : List Stmt :=
  tr.filterMap (fun ev => match ev with | .stmt st => some st | _ => none)

/-- The per-query report lines of a trace: `(true, name)` for a timing line,
`(false, name)` for an error report. -/
def reportOf : Ev → Option (Bool × String)
  | .timing name _ => some (true, name)
  | .errorLine name _ => some (false, name)
  | _ => none

/-- `Except` success as a `Bool`. -/
def okB {ε α : Type} : Except ε α → Bool
  | .ok _ => true
  | .error _ => false

/-- The index names a list of statements drops. -/
def droppedNamesOf (sts : List Stmt) : List String :=
  sts.filterMap (fun st => match st with | .dropIfExists n => some n | _ => none)

/-- The index names a list of statements creates (property or full-text). -/
def createdNamesOf (sts : List Stmt) : List String :=
  sts.filterMap (fun st =>
    match st with
    | .createIfNotExists n => some n
    | .createFulltext n => some n
    | _ => none)

instance {ε α : Type} [DecidableEq ε] [DecidableEq α] :
    DecidableEq (Except ε α) := fun a b =>
  match a, b with
  | .error e, .error f => decidable_of_iff (e = f) (by simp)
  | .error _, .ok _ => isFalse (by simp)
  | .ok _, .error _ => isFalse (by simp)
  | .ok x, .ok y => decidable_of_iff (x = y) (by simp)

/-- A benign test environment: every query succeeds with one record
`{x: 1}`, no injected index failures, the clock reads its tick. -/
def tEnv : Env where
  runQuery := fun _ _ => .ok [[("x", Value.int 1)]]
  inj := fun _ => none
  clock := fun n => n

/-- An initial open harness state over an empty catalogue. -/
def s0 : HState := { closed := false, indexes := [], tick := 0 }

/-- An environment whose backend rejects the `CREATE INDEX
book_year_index IF NOT EXISTS` statement (e.g. a permissions or
connectivity failure on that call). -/
def cEnvYear : Env where
  runQuery := fun _ _ => .ok []
  inj := fun st =>
    if st = .createIfNotExists "book_year_index" then some "boom" else none
  clock := fun n => n

/-- An environment whose backend rejects the full-text
`CREATE FULLTEXT INDEX book_title_index` statement. -/
def cEnvFT : Env where
  runQuery := fun _ _ => .ok []
  inj := fun st =>
    if st = .createFulltext "book_title_index" then some "ftboom" else none
  clock := fun n => n

/-- An environment whose backend rejects the
`DROP INDEX book_title_index IF EXISTS` statement. -/
def cEnvDropT : Env where
  runQuery := fun _ _ => .ok []
  inj := fun st =>
    if st = .dropIfExists "book_title_index" then some "boom" else none
  clock := fun n => n

/-- An environment whose backend rejects the
`DROP INDEX book_year_index IF EXISTS` statement. -/
def cEnvDropY : Env where
  runQuery := fun _ _ => .ok []
  inj := fun st =>
    if st = .dropIfExists "book_year_index" then some "boom" else none
  clock := fun n => n

/-- An environment whose backend rejects the
`CREATE INDEX book_format_index IF NOT EXISTS` statement. -/
def cEnvFormat : Env where
  runQuery := fun _ _ => .ok []
  inj := fun st =>
    if st = .createIfNotExists "book_format_index" then some "boom" else none
  clock := fun n => n

/-- An environment where exactly one of the six benchmark queries (the
"aggregation paperback" one) is malformed and rejected by the backend;
every other query succeeds. -/
def tEnvFail : Env where
  runQuery := fun q _ =>
    if q = "MATCH (b:Book) WHERE b.format = \"Paperback\" RETURN count(b)"
    then .error "Invalid input \x27Paperback\x27"
    else .ok [[("x", Value.int 1)]]
  inj := fun _ => none
  clock := fun n => n

/-- The catalogue after dropping every name of `ns` in order. -/
def dropAll (ns : List String) (l : List String) : List String :=
  ns.foldl (fun acc n => acc.filter (· ≠ n)) l

/-- The catalogue after creating (skip-if-present) every name of `ns` in
order. -/
def addAll (ns : List String) (l : List String) : List String :=
  ns.foldl (fun acc n => if n ∈ acc then acc else acc ++ [n]) l

/-- The trace of the four uncaught create steps when none fails. -/
def createTrace : List String → List Ev
  | [] => []
  | n :: rest =>
    .stmt (.createIfNotExists n) :: .print ("created index: " ++ n) ::
      createTrace rest

/-- The trace of a run of drop statements when none fails. -/
def dropTrace (ns : List String) : List Ev :=
  ns.map (fun n => Ev.stmt (.dropIfExists n))

theorem dropAll_cons (n : String) (ns : List String) (l : List String) :
    dropAll (n :: ns) l = dropAll ns (l.filter (· ≠ n)) := rfl

theorem mem_dropAll {x : String} {ns l : List String} :
    x ∈ dropAll ns l ↔ x ∈ l ∧ x ∉ ns := by
  induction ns generalizing l with
  | nil => simp [dropAll]
  | cons n rest ih =>
    rw [dropAll_cons, ih]
    simp [List.mem_filter]
    tauto

theorem dropAll_eq_self {ns l : List String} (h : ∀ x ∈ l, x ∉ ns) :
    dropAll ns l = l := by
  induction ns with
  | nil => rfl
  | cons n rest ih =>
    rw [dropAll_cons]
    have hf : l.filter (· ≠ n) = l := by
      apply List.filter_eq_self.mpr
      intro a ha
      have := h a ha
      simp at this ⊢
      exact this.1
    rw [hf]
    exact ih (fun x hx => by
      have := h x hx
      simp at this
      simp [this.2])

theorem dropAll_idem (ns l : List String) :
    dropAll ns (dropAll ns l) = dropAll ns l :=
  dropAll_eq_self (fun _ hx => (mem_dropAll.mp hx).2)

theorem count_addAll {x : String} {ns : List String} (l : List String)
    (h : x ∉ ns) : (addAll ns l).count x = l.count x := by
  induction ns generalizing l with
  | nil => rfl
  | cons n rest ih =>
    simp at h
    have hstep : addAll (n :: rest) l = addAll rest (if n ∈ l then l else l ++ [n]) := rfl
    rw [hstep]
    by_cases hn : n ∈ l
    · simp [hn, ih _ h.2]
    · simp [hn, ih _ h.2, List.count_append, List.count_singleton', h.1]

theorem stmtsOf_append (t1 t2 : List Ev) :
    stmtsOf (t1 ++ t2) = stmtsOf t1 ++ stmtsOf t2 := by
  simp [stmtsOf]

theorem stmtsOf_dropTrace (ns : List String) :
    stmtsOf (dropTrace ns) = ns.map Stmt.dropIfExists := by
  induction ns with
  | nil => rfl
  | cons n rest ih => simp [dropTrace, stmtsOf] at ih ⊢; exact ih

theorem stmtsOf_createTrace (ns : List String) :
    stmtsOf (createTrace ns) = ns.map Stmt.createIfNotExists := by
  induction ns with
  | nil => rfl
  | cons n rest ih => simp [createTrace, stmtsOf] at ih ⊢; exact ih

theorem reports_dropTrace (ns : List String) :
    (dropTrace ns).filterMap reportOf = [] := by
  induction ns with
  | nil => rfl
  | cons n rest ih => simp [dropTrace, reportOf]

theorem reports_createTrace (ns : List String) :
    (createTrace ns).filterMap reportOf = [] := by
  induction ns with
  | nil => rfl
  | cons n rest ih => simp [createTrace, reportOf] at ih ⊢; exact ih

theorem measure_ok_eq (env : Env) (q : String) (p : Option Params)
    (s : HState) (recs : List Rec) (h : s.closed = false)
    (hq : env.runQuery q (p.getD []) = .ok recs) :
    measure_query_time env q p s =
      (.ok (recs.map toDict, env.clock (s.tick + 1) - env.clock s.tick),
       { s with tick := s.tick + 2 }, [.stmt (.query q (p.getD []))]) := by
  simp only [measure_query_time, runStmt, h, hq, Except.map]
  simp

theorem measure_err_eq (env : Env) (q : String) (p : Option Params)
    (s : HState) (e : String) (h : s.closed = false)
    (hq : env.runQuery q (p.getD []) = .error e) :
    measure_query_time env q p s =
      (.error (.backend e), { s with tick := s.tick + 1 },
       [.stmt (.query q (p.getD []))]) := by
  simp only [measure_query_time, runStmt, h, hq, Except.map]
  simp

theorem runStmts_drops (env : Env)
    (hinj : ∀ n, env.inj (.dropIfExists n) = none) (ns : List String)
    (s : HState) :
    runStmts env (ns.map Stmt.dropIfExists) s =
      (.ok (), { s with indexes := dropAll ns s.indexes }, dropTrace ns) := by
  induction ns generalizing s with
  | nil => simp [runStmts, dropTrace, dropAll]
  | cons n rest ih =>
    have h1 : runStmt env (Stmt.dropIfExists n) s =
        .ok ([], { s with indexes := s.indexes.filter (· ≠ n) }) := by
      simp [runStmt, hinj]
    simp only [List.map_cons, runStmts, h1]
    rw [ih]
    simp [dropTrace, dropAll_cons]

theorem drop_indexes_ok (env : Env) (s : HState) (h : s.closed = false)
    (hinj : ∀ n, env.inj (.dropIfExists n) = none) :
    drop_indexes env s =
      (.ok (), { s with indexes := dropAll dropNames s.indexes },
       dropTrace dropNames) := by
  simp [drop_indexes, h, runStmts_drops env hinj dropNames s]

theorem createSteps_eq (env : Env)
    (hinj : ∀ n, env.inj (.createIfNotExists n) = none) (ns : List String)
    (s : HState) :
    createSteps env ns s =
      (.ok (), { s with indexes := addAll ns s.indexes }, createTrace ns) := by
  induction ns generalizing s with
  | nil => simp [createSteps, createTrace, addAll]
  | cons n rest ih =>
    by_cases hn : n ∈ s.indexes
    · have h1 : runStmt env (Stmt.createIfNotExists n) s = .ok ([], s) := by
        simp [runStmt, hinj, hn]
      have hstep : addAll (n :: rest) s.indexes = addAll rest s.indexes := by
        simp [addAll, hn]
      simp only [createSteps, h1]
      rw [ih]
      simp [createTrace, hstep]
    · have h1 : runStmt env (Stmt.createIfNotExists n) s =
          .ok ([], { s with indexes := s.indexes ++ [n] }) := by
        simp [runStmt, hinj, hn]
      have hstep : addAll (n :: rest) s.indexes =
          addAll rest (s.indexes ++ [n]) := by
        simp [addAll, hn]
      simp only [createSteps, h1]
      rw [ih]
      simp [createTrace, hstep]

theorem create_indexes_eq (env : Env) (s : HState) (h : s.closed = false)
    (hD : env.inj (.dropIfExists "book_title_index") = none)
    (hF : env.inj (.createFulltext "book_title_index") = none)
    (hC : ∀ n, env.inj (.createIfNotExists n) = none) :
    create_indexes env s =
      (.ok (), { s with indexes := (addAll propertyIndexNames
                  (s.indexes.filter (· ≠ "book_title_index") ++
                   ["book_title_index"])) },
       [.stmt (.dropIfExists "book_title_index"),
        .stmt (.createFulltext "book_title_index"),
        .print "created full-text index: book_title_index"] ++
         createTrace propertyIndexNames) := by
  have h1 : runStmt env (Stmt.dropIfExists "book_title_index") s =
      .ok ([], { s with indexes :=
        s.indexes.filter (· ≠ "book_title_index") }) := by
    simp [runStmt, hD]
  have hmem : "book_title_index" ∉
      ({ s with indexes := s.indexes.filter (· ≠ "book_title_index") } :
        HState).indexes := by
    simp [List.mem_filter]
  have h2 : runStmt env (Stmt.createFulltext "book_title_index")
      { s with indexes := s.indexes.filter (· ≠ "book_title_index") } =
      .ok ([], { s with indexes :=
        s.indexes.filter (· ≠ "book_title_index") ++
          ["book_title_index"] }) := by
    rw [runStmt]
    rw [hF]
    rw [if_neg hmem]
  simp only [create_indexes, h1, h2]
  rw [createSteps_eq env hC]
  simp [h]

theorem benchLoop_spec (env : Env) (p : Option Params)
    (qs : List (String × String)) (s : HState) (h : s.closed = false) :
    (benchLoop env p qs s).1.closed = false ∧
    (benchLoop env p qs s).1.indexes = s.indexes ∧
    stmtsOf (benchLoop env p qs s).2 =
      qs.map (fun nq => Stmt.query nq.2 (p.getD [])) ∧
    (benchLoop env p qs s).2.filterMap reportOf =
      qs.map (fun nq => (okB (env.runQuery nq.2 (p.getD [])), nq.1)) := by
  induction qs generalizing s with
  | nil => simp [benchLoop, stmtsOf, h]
  | cons nq rest ih =>
    obtain ⟨name, q⟩ := nq
    cases hq : env.runQuery q (p.getD []) with
    | ok recs =>
      have hm := measure_ok_eq env q p s recs h hq
      have hr := ih { s with tick := s.tick + 2 } h
      simp only [benchLoop, hm]
      simp only [stmtsOf] at hr ⊢
      simp [reportOf, okB, hq, hr.1, hr.2.1, hr.2.2.1, hr.2.2.2]
    | error e =>
      have hm := measure_err_eq env q p s e h hq
      have hr := ih { s with tick := s.tick + 1 } h
      simp only [benchLoop, hm]
      simp only [stmtsOf] at hr ⊢
      simp [reportOf, okB, hq, hr.1, hr.2.1, hr.2.2.1, hr.2.2.2]

/-- C10: calling `measure_query_time` with the parameter mapping omitted
(`params=None`) is the same as calling it with an empty mapping: both
submit the query with `{}` (`params or {}`) and return the same rows and
elapsed time. -/
theorem measure_query_time_none_params (env : Env) (q : String) (s : HState) :
    measure_query_time env q none s = measure_query_time env q (some []) s :=
  rfl

/-- C4: after `close`, every operation of the class — `measure_query_time`,
`drop_indexes`, `create_indexes`, `demonstrate_queries` — fails with the
closed-handle error, and each leaves the harness closed: the
`Open → Closed` transition is one-way. -/
theorem closed_harness_spec (env : Env) (q : String) (p : Option Params)
    (s : HState) :
    (measure_query_time env q p (close s)).1 = .error .closedHandle ∧
    (drop_indexes env (close s)).1 = .error .closedHandle ∧
    (create_indexes env (close s)).1 = .error .closedHandle ∧
    (demonstrate_queries env (close s)).1 = .error .closedHandle ∧
    (measure_query_time env q p (close s)).2.1.closed = true ∧
    (drop_indexes env (close s)).2.1.closed = true ∧
    (create_indexes env (close s)).2.1.closed = true ∧
    (demonstrate_queries env (close s)).2.1.closed = true := by
  simp [measure_query_time, drop_indexes, create_indexes,
    demonstrate_queries, close]

/-- C3: on an open harness, for a query the backend answers successfully,
`measure_query_time` returns the fully materialized records as dicts (one
per record, in order, so the row count matches the record count reported)
together with a non-negative elapsed time read immediately before
submission and immediately after materialization. -/
theorem measure_query_time_spec (env : Env) (q : String) (p : Option Params)
    (s : HState) (recs : List Rec) (h : s.closed = false)
    (hq : env.runQuery q (p.getD []) = .ok recs)
    (hclock : Monotone env.clock) :
    (measure_query_time env q p s).1 =
      .ok (recs.map toDict, env.clock (s.tick + 1) - env.clock s.tick) ∧
    0 ≤ env.clock (s.tick + 1) - env.clock s.tick ∧
    (recs.map toDict).length = recs.length := by
  refine ⟨?_, ?_, by simp⟩
  · rw [measure_ok_eq env q p s recs h hq]
  · have h2 : env.clock s.tick ≤ env.clock (s.tick + 1) :=
      hclock (by omega)
    omega

/-- Witness for C3: the scenario `RETURN 1 as x` yielding one record
`{x: 1}` with non-negative elapsed time. -/
theorem measure_query_time_spec_witness :
    s0.closed = false ∧
    tEnv.runQuery "RETURN 1 as x" ((none : Option Params).getD []) =
      .ok [[("x", Value.int 1)]] ∧
    Monotone tEnv.clock ∧
    ((measure_query_time tEnv "RETURN 1 as x" none s0).1 =
      .ok (([[("x", Value.int 1)]] : List Rec).map toDict,
           tEnv.clock (s0.tick + 1) - tEnv.clock s0.tick) ∧
     0 ≤ tEnv.clock (s0.tick + 1) - tEnv.clock s0.tick ∧
     (([[("x", Value.int 1)]] : List Rec).map toDict).length =
       ([[("x", Value.int 1)]] : List Rec).length) := by
  have hmono : Monotone tEnv.clock := by
    intro a b hab
    simp only [tEnv]
    exact_mod_cast hab
  exact ⟨rfl, rfl, hmono,
    measure_query_time_spec tEnv "RETURN 1 as x" none s0
      [[("x", Value.int 1)]] rfl rfl hmono⟩

theorem stmtsOf_cons_stmt (st : Stmt) (t : List Ev) :
    stmtsOf (.stmt st :: t) = st :: stmtsOf t := rfl

theorem stmtsOf_cons_print (m : String) (t : List Ev) :
    stmtsOf (.print m :: t) = stmtsOf t := rfl

theorem stmtsOf_cons_timing (n : String) (x : Int) (t : List Ev) :
    stmtsOf (.timing n x :: t) = stmtsOf t := rfl

theorem stmtsOf_cons_errorLine (n m : String) (t : List Ev) :
    stmtsOf (.errorLine n m :: t) = stmtsOf t := rfl

theorem stmtsOf_nil : stmtsOf [] = [] := rfl

theorem reports_cons_stmt (st : Stmt) (t : List Ev) :
    (Ev.stmt st :: t).filterMap reportOf = t.filterMap reportOf := rfl

theorem reports_cons_print (m : String) (t : List Ev) :
    (Ev.print m :: t).filterMap reportOf = t.filterMap reportOf := rfl

theorem reports_cons_timing (n : String) (x : Int) (t : List Ev) :
    (Ev.timing n x :: t).filterMap reportOf =
      (true, n) :: t.filterMap reportOf := rfl

theorem reports_cons_errorLine (n m : String) (t : List Ev) :
    (Ev.errorLine n m :: t).filterMap reportOf =
      (false, n) :: t.filterMap reportOf := rfl

/-- Counterexample to C1 as stated: when the create of `book_year_index`
fails, `create_indexes` raises instead of logging, and the creates of the
subsequent descriptors (`book_format_index`, ...) are never attempted. -/
theorem create_indexes_abort_cex :
    (create_indexes cEnvYear s0).1 = .error (.backend "boom") ∧
    Ev.stmt (.createIfNotExists "book_year_index") ∈
      (create_indexes cEnvYear s0).2.2 ∧
    Ev.stmt (.createIfNotExists "book_format_index") ∉
      (create_indexes cEnvYear s0).2.2 := by
  decide

theorem createSteps_fail (env : Env) (n : String) (post : List String)
    (e : String) (hn : env.inj (.createIfNotExists n) = some e) :
    ∀ (pre : List String) (s : HState),
    (∀ m ∈ pre, env.inj (.createIfNotExists m) = none) →
    createSteps env (pre ++ n :: post) s =
      (.error e, { s with indexes := addAll pre s.indexes },
       createTrace pre ++ [.stmt (.createIfNotExists n)])
  | [], s, _ => by
    simp [createSteps, runStmt, hn, createTrace, addAll]
  | m :: pre, s, hpre => by
    have hrec := createSteps_fail env n post e hn pre
    by_cases hm : m ∈ s.indexes
    · have h1 : runStmt env (Stmt.createIfNotExists m) s = .ok ([], s) := by
        simp [runStmt, hpre m (by simp), hm]
      have hstep : addAll (m :: pre) s.indexes = addAll pre s.indexes := by
        simp [addAll, hm]
      have hr := hrec s (fun x hx => hpre x (by simp [hx]))
      simp only [List.cons_append, createSteps, h1, List.append_eq] at hr ⊢
      rw [hr]
      simp [createTrace, hstep]
    · have h1 : runStmt env (Stmt.createIfNotExists m) s =
          .ok ([], { s with indexes := s.indexes ++ [m] }) := by
        simp [runStmt, hpre m (by simp), hm]
      have hstep : addAll (m :: pre) s.indexes =
          addAll pre (s.indexes ++ [m]) := by
        simp [addAll, hm]
      have hr := hrec { s with indexes := s.indexes ++ [m] }
        (fun x hx => hpre x (by simp [hx]))
      simp only [List.cons_append, createSteps, h1, List.append_eq] at hr ⊢
      rw [hr]
      simp [createTrace, hstep]

/-- C1 (amended): only the operations on the full-text descriptor are guarded:
a failure of the full-text create is logged and every subsequent
property-index create is still attempted, but a failure of any of the four
property-index creates escapes `create_indexes` uncaught: the creates
before the failing one (in source order) are issued, the failing one is
issued and raises, and the creates after it are not attempted. -/
theorem create_indexes_error_handling (env env2 : Env) (s s2 : HState)
    (e e2 : String) (pre post : List String) (n : String)
    (h : s.closed = false)
    (hD : env.inj (.dropIfExists "book_title_index") = none)
    (hF : env.inj (.createFulltext "book_title_index") = some e)
    (hC : ∀ m, env.inj (.createIfNotExists m) = none)
    (h2 : s2.closed = false)
    (h2D : env2.inj (.dropIfExists "book_title_index") = none)
    (h2F : env2.inj (.createFulltext "book_title_index") = none)
    (hsplit : propertyIndexNames = pre ++ n :: post)
    (hpre : ∀ m ∈ pre, env2.inj (.createIfNotExists m) = none)
    (hn : env2.inj (.createIfNotExists n) = some e2) :
    ((create_indexes env s).1 = .ok () ∧
     Ev.print ("Error creating full-text index: " ++ e) ∈
       (create_indexes env s).2.2 ∧
     stmtsOf (create_indexes env s).2.2 =
       .dropIfExists "book_title_index" :: .createFulltext "book_title_index" ::
         propertyIndexNames.map .createIfNotExists) ∧
    ((create_indexes env2 s2).1 = .error (.backend e2) ∧
     stmtsOf (create_indexes env2 s2).2.2 =
       .dropIfExists "book_title_index" :: .createFulltext "book_title_index" ::
         (pre ++ [n]).map Stmt.createIfNotExists) := by
  constructor
  · have h1 : runStmt env (Stmt.dropIfExists "book_title_index") s =
        .ok ([], { s with indexes :=
          s.indexes.filter (· ≠ "book_title_index") }) := by
      simp [runStmt, hD]
    have hft : runStmt env (Stmt.createFulltext "book_title_index")
        { s with indexes := s.indexes.filter (· ≠ "book_title_index") } =
        .error e := by
      simp [runStmt, hF]
    simp only [create_indexes, h1, hft]
    rw [createSteps_eq env hC]
    simp [h, stmtsOf_cons_stmt, stmtsOf_cons_print, stmtsOf_createTrace]
  · have h1 : runStmt env2 (Stmt.dropIfExists "book_title_index") s2 =
        .ok ([], { s2 with indexes :=
          s2.indexes.filter (· ≠ "book_title_index") }) := by
      simp [runStmt, h2D]
    have hmem : "book_title_index" ∉
        ({ s2 with indexes :=
            s2.indexes.filter (· ≠ "book_title_index") } : HState).indexes := by
      simp [List.mem_filter]
    have hft : runStmt env2 (Stmt.createFulltext "book_title_index")
        { s2 with indexes := s2.indexes.filter (· ≠ "book_title_index") } =
        .ok ([], { s2 with indexes :=
          (s2.indexes.filter (· ≠ "book_title_index") ++
            ["book_title_index"]) }) := by
      rw [runStmt]
      rw [h2F]
      rw [if_neg hmem]
    have hcs : createSteps env2 propertyIndexNames
        { s2 with indexes :=
          (s2.indexes.filter (· ≠ "book_title_index") ++
            ["book_title_index"]) } =
        (.error e2,
         { { s2 with indexes :=
             (s2.indexes.filter (· ≠ "book_title_index") ++
               ["book_title_index"]) } with indexes :=
           (addAll pre
             (s2.indexes.filter (· ≠ "book_title_index") ++
               ["book_title_index"])) },
         createTrace pre ++ [.stmt (.createIfNotExists n)]) := by
      rw [hsplit]
      exact createSteps_fail env2 n post e2 hn pre _ hpre
    simp only [create_indexes, h1, hft, hcs]
    simp [h2, stmtsOf_append, stmtsOf_cons_stmt, stmtsOf_cons_print,
      stmtsOf_createTrace, stmtsOf_nil]

/-- Witness for C1 (amended): concrete environments where the full-text
create fails (tolerated, all four property creates still issued) and
where the mid-batch `book_format_index` create fails (the batch stops:
`book_year_index` and `book_format_index` issued, the last two never). -/
theorem create_indexes_error_handling_witness :
    s0.closed = false ∧
    cEnvFT.inj (.dropIfExists "book_title_index") = none ∧
    cEnvFT.inj (.createFulltext "book_title_index") = some "ftboom" ∧
    (∀ m, cEnvFT.inj (.createIfNotExists m) = none) ∧
    cEnvFormat.inj (.dropIfExists "book_title_index") = none ∧
    cEnvFormat.inj (.createFulltext "book_title_index") = none ∧
    propertyIndexNames = ["book_year_index"] ++ "book_format_index" ::
      ["book_lang_pages_index", "book_ebook_index"] ∧
    (∀ m ∈ ["book_year_index"],
      cEnvFormat.inj (.createIfNotExists m) = none) ∧
    cEnvFormat.inj (.createIfNotExists "book_format_index") = some "boom" ∧
    (((create_indexes cEnvFT s0).1 = .ok () ∧
      Ev.print ("Error creating full-text index: " ++ "ftboom") ∈
        (create_indexes cEnvFT s0).2.2 ∧
      stmtsOf (create_indexes cEnvFT s0).2.2 =
        .dropIfExists "book_title_index" ::
          .createFulltext "book_title_index" ::
          propertyIndexNames.map .createIfNotExists) ∧
     ((create_indexes cEnvFormat s0).1 = .error (.backend "boom") ∧
      stmtsOf (create_indexes cEnvFormat s0).2.2 =
        .dropIfExists "book_title_index" ::
          .createFulltext "book_title_index" ::
          (["book_year_index"] ++ ["book_format_index"]).map
            Stmt.createIfNotExists)) := by
  refine ⟨rfl, by decide, by decide, fun m => rfl, by decide, by decide,
    by decide, by decide, by decide, ?_⟩
  exact create_indexes_error_handling cEnvFT cEnvFormat s0 s0 "ftboom" "boom"
    ["book_year_index"] ["book_lang_pages_index", "book_ebook_index"]
    "book_format_index" rfl (by decide) (by decide) (fun m => rfl) rfl
    (by decide) (by decide) (by decide) (by decide) (by decide)


theorem runStmts_drops_fail (env : Env) (n : String) (post : List String)
    (e : String) (hn : env.inj (.dropIfExists n) = some e) :
    ∀ (pre : List String) (s : HState),
    (∀ m ∈ pre, env.inj (.dropIfExists m) = none) →
    runStmts env ((pre ++ n :: post).map Stmt.dropIfExists) s =
      (.error e, { s with indexes := dropAll pre s.indexes },
       dropTrace pre ++ [.stmt (.dropIfExists n)])
  | [], s, _ => by
    simp [runStmts, runStmt, hn, dropTrace, dropAll]
  | m :: pre, s, hpre => by
    have h1 : runStmt env (Stmt.dropIfExists m) s =
        .ok ([], { s with indexes := s.indexes.filter (· ≠ m) }) := by
      simp [runStmt, hpre m (by simp)]
    have hrec := runStmts_drops_fail env n post e hn pre
      { s with indexes := s.indexes.filter (· ≠ m) }
      (fun x hx => hpre x (by simp [hx]))
    simp only [List.cons_append, List.map_cons, runStmts, h1,
      List.append_eq] at hrec ⊢
    rw [hrec]
    simp [dropTrace, dropAll_cons]

/-- Counterexample to C2 as stated: when the drop of `book_title_index`
fails, `drop_indexes` catches and logs it, but the drops of the remaining
names (`book_year_index`, ...) are never issued. -/
theorem drop_indexes_abort_cex :
    (drop_indexes cEnvDropT s0).1 = .ok () ∧
    Ev.print ("Error dropping indexes: " ++ "boom") ∈
      (drop_indexes cEnvDropT s0).2.2 ∧
    Ev.stmt (.dropIfExists "book_year_index") ∉
      (drop_indexes cEnvDropT s0).2.2 := by
  decide

/-- C2 (amended): all five drops share one `try:` block: a failing drop is
caught and logged and `drop_indexes` itself returns normally, but the
drops after the failing one in the same call are not attempted. -/
theorem drop_indexes_error_handling (env : Env) (s : HState) (e : String)
    (pre post : List String) (n : String)
    (hsplit : dropNames = pre ++ n :: post)
    (h : s.closed = false)
    (hpre : ∀ m ∈ pre, env.inj (.dropIfExists m) = none)
    (hn : env.inj (.dropIfExists n) = some e) :
    (drop_indexes env s).1 = .ok () ∧
    Ev.print ("Error dropping indexes: " ++ e) ∈ (drop_indexes env s).2.2 ∧
    stmtsOf (drop_indexes env s).2.2 = (pre ++ [n]).map Stmt.dropIfExists := by
  have hr := runStmts_drops_fail env n post e hn pre s hpre
  simp only [drop_indexes, hsplit, hr, h]
  simp [stmtsOf_append, stmtsOf_dropTrace, stmtsOf_cons_stmt,
    stmtsOf_cons_print, stmtsOf_nil]

/-- Witness for C2 (amended): the drop of `book_year_index` fails after a
successful drop of `book_title_index`; the last three drops are skipped. -/
theorem drop_indexes_error_handling_witness :
    dropNames = ["book_title_index"] ++ "book_year_index" ::
      ["book_format_index", "book_lang_pages_index", "book_ebook_index"] ∧
    s0.closed = false ∧
    (∀ m ∈ ["book_title_index"], cEnvDropY.inj (.dropIfExists m) = none) ∧
    cEnvDropY.inj (.dropIfExists "book_year_index") = some "boom" ∧
    ((drop_indexes cEnvDropY s0).1 = .ok () ∧
     Ev.print ("Error dropping indexes: " ++ "boom") ∈
       (drop_indexes cEnvDropY s0).2.2 ∧
     stmtsOf (drop_indexes cEnvDropY s0).2.2 =
       (["book_title_index"] ++ ["book_year_index"]).map Stmt.dropIfExists) := by
  refine ⟨by decide, rfl, by decide, by decide, ?_⟩
  exact drop_indexes_error_handling cEnvDropY s0 "boom" ["book_title_index"]
    ["book_format_index", "book_lang_pages_index", "book_ebook_index"]
    "book_year_index" (by decide) rfl (by decide) (by decide)

/-- C8: `drop_indexes` is idempotent: with no backend failures injected,
a call and an immediate second call both succeed with no error output
(dropping a non-existent index is not an error thanks to `IF EXISTS`),
and the second call leaves the catalogue unchanged. -/
theorem drop_indexes_idempotent (env : Env) (s : HState)
    (h : s.closed = false)
    (hinj : ∀ n, env.inj (.dropIfExists n) = none) :
    (drop_indexes env s).1 = .ok () ∧
    (∀ m, Ev.print m ∉ (drop_indexes env s).2.2) ∧
    (drop_indexes env (drop_indexes env s).2.1).1 = .ok () ∧
    (∀ m, Ev.print m ∉ (drop_indexes env (drop_indexes env s).2.1).2.2) ∧
    (drop_indexes env (drop_indexes env s).2.1).2.1.indexes =
      (drop_indexes env s).2.1.indexes := by
  have h1 := drop_indexes_ok env s h hinj
  have h2 := drop_indexes_ok env
    { s with indexes := dropAll dropNames s.indexes } h hinj
  simp only [h1, h2]
  simp [dropTrace, dropAll_idem]

/-- Witness for C8: two consecutive `drop_indexes` calls on the benign
environment from the initial state. -/
theorem drop_indexes_idempotent_witness :
    s0.closed = false ∧ (∀ n, tEnv.inj (.dropIfExists n) = none) ∧
    ((drop_indexes tEnv s0).1 = .ok () ∧
     (∀ m, Ev.print m ∉ (drop_indexes tEnv s0).2.2) ∧
     (drop_indexes tEnv (drop_indexes tEnv s0).2.1).1 = .ok () ∧
     (∀ m, Ev.print m ∉ (drop_indexes tEnv (drop_indexes tEnv s0).2.1).2.2) ∧
     (drop_indexes tEnv (drop_indexes tEnv s0).2.1).2.1.indexes =
       (drop_indexes tEnv s0).2.1.indexes) :=
  ⟨rfl, fun _ => rfl, drop_indexes_idempotent tEnv s0 rfl (fun _ => rfl)⟩

/-- C9: with no backend failures injected, the names `drop_indexes` drops
and the names `create_indexes` creates are the same hard-coded five, for
every environment and every open state: neither takes a name-set
parameter. -/
theorem index_name_sets_agree (env : Env) (s s2 : HState)
    (h : s.closed = false) (h2 : s2.closed = false)
    (hinj : ∀ st, env.inj st = none) :
    droppedNamesOf (stmtsOf (drop_indexes env s).2.2) = dropNames ∧
    createdNamesOf (stmtsOf (create_indexes env s2).2.2) = dropNames ∧
    dropNames = ["book_title_index", "book_year_index", "book_format_index",
                 "book_lang_pages_index", "book_ebook_index"] := by
  have h1 := drop_indexes_ok env s h (fun n => hinj _)
  have h3 := create_indexes_eq env s2 h2 (hinj _) (hinj _) (fun n => hinj _)
  have htrD : (drop_indexes env s).2.2 = dropTrace dropNames := by rw [h1]
  have htrC : (create_indexes env s2).2.2 =
      [Ev.stmt (Stmt.dropIfExists "book_title_index"),
       Ev.stmt (Stmt.createFulltext "book_title_index"),
       Ev.print "created full-text index: book_title_index"] ++
        createTrace propertyIndexNames := by rw [h3]
  refine ⟨by rw [htrD]; decide, by rw [htrC]; decide, rfl⟩

/-- Witness for C9: the benign environment from two initial states. -/
theorem index_name_sets_agree_witness :
    s0.closed = false ∧ (∀ st, tEnv.inj st = none) ∧
    (droppedNamesOf (stmtsOf (drop_indexes tEnv s0).2.2) = dropNames ∧
     createdNamesOf (stmtsOf (create_indexes tEnv s0).2.2) = dropNames ∧
     dropNames = ["book_title_index", "book_year_index", "book_format_index",
                  "book_lang_pages_index", "book_ebook_index"]) :=
  ⟨rfl, fun _ => rfl,
   index_name_sets_agree tEnv s0 s0 rfl rfl (fun _ => rfl)⟩

/-- C7: with no backend failures injected, `create_indexes` always issues
the drop of the full-text index immediately before its create (the first
two statements of the batch), and after one or two consecutive
`create_indexes` calls exactly one index named `book_title_index`
exists. -/
theorem create_indexes_fulltext_drop_before_create (env : Env) (s : HState)
    (h : s.closed = false) (hinj : ∀ st, env.inj st = none) :
    (stmtsOf (create_indexes env s).2.2).take 2 =
      [.dropIfExists "book_title_index", .createFulltext "book_title_index"] ∧
    (create_indexes env s).2.1.indexes.count "book_title_index" = 1 ∧
    (create_indexes env (create_indexes env s).2.1).2.1.indexes.count
      "book_title_index" = 1 := by
  have h1 := create_indexes_eq env s h (hinj _) (hinj _) (fun n => hinj _)
  have hcount : ∀ l : List String,
      (addAll propertyIndexNames
        (l.filter (· ≠ "book_title_index") ++ ["book_title_index"])).count
        "book_title_index" = 1 := by
    intro l
    rw [count_addAll _ (by decide)]
    rw [List.count_append]
    have hz : (l.filter (· ≠ "book_title_index")).count "book_title_index"
        = 0 :=
      List.count_eq_zero.mpr (by simp [List.mem_filter])
    rw [hz]
    decide
  have hs1 : (create_indexes env s).2.1 =
      { s with indexes := (addAll propertyIndexNames
        (s.indexes.filter (· ≠ "book_title_index") ++
          ["book_title_index"])) } := by
    rw [h1]
  have h2 := create_indexes_eq env
    { s with indexes := (addAll propertyIndexNames
      (s.indexes.filter (· ≠ "book_title_index") ++
        ["book_title_index"])) } h (hinj _) (hinj _) (fun n => hinj _)
  have htr : (create_indexes env s).2.2 =
      [Ev.stmt (Stmt.dropIfExists "book_title_index"),
       Ev.stmt (Stmt.createFulltext "book_title_index"),
       Ev.print "created full-text index: book_title_index"] ++
        createTrace propertyIndexNames := by rw [h1]
  refine ⟨by rw [htr]; decide, ?_, ?_⟩
  · rw [hs1]
    exact hcount s.indexes
  · have hs2 : (create_indexes env (create_indexes env s).2.1).2.1.indexes =
        (addAll propertyIndexNames
          (((create_indexes env s).2.1).indexes.filter
            (· ≠ "book_title_index") ++ ["book_title_index"])) := by
      rw [hs1, h2]
    rw [hs2]
    exact hcount _

/-- Witness for C7: the benign environment from the initial state. -/
theorem create_indexes_fulltext_drop_before_create_witness :
    s0.closed = false ∧ (∀ st, tEnv.inj st = none) ∧
    ((stmtsOf (create_indexes tEnv s0).2.2).take 2 =
      [.dropIfExists "book_title_index", .createFulltext "book_title_index"] ∧
     (create_indexes tEnv s0).2.1.indexes.count "book_title_index" = 1 ∧
     (create_indexes tEnv (create_indexes tEnv s0).2.1).2.1.indexes.count
       "book_title_index" = 1) :=
  ⟨rfl, fun _ => rfl,
   create_indexes_fulltext_drop_before_create tEnv s0 rfl (fun _ => rfl)⟩

theorem demonstrate_queries_trace (env : Env) (s : HState)
    (h : s.closed = false) (hinj : ∀ st, env.inj st = none) :
    ∃ s1 s2 s3 : HState, s1.closed = false ∧ s2.closed = false ∧
      s3.closed = false ∧
    (demonstrate_queries env s).1 = .ok () ∧
    (demonstrate_queries env s).2.2 =
      [Ev.print "dropping existing indexes..."] ++ dropTrace dropNames ++
      [Ev.print "\nbefore creating indexes:"] ++
      (benchLoop env none queriesList s1).2 ++
      [Ev.print "\ncreating indexes..."] ++
      ([Ev.stmt (Stmt.dropIfExists "book_title_index"),
        Ev.stmt (Stmt.createFulltext "book_title_index"),
        Ev.print "created full-text index: book_title_index"] ++
        createTrace propertyIndexNames) ++
      [Ev.print "\nafter creating indexes:"] ++
      (benchLoop env none queriesList s2).2 ++
      (benchLoop env (some fulltextParams) fulltextQueryList s3).2 := by
  have hd := drop_indexes_ok env s h (fun n => hinj _)
  have hb := benchLoop_spec env none queriesList
    { s with indexes := dropAll dropNames s.indexes } h
  have hc := create_indexes_eq env
    (benchLoop env none queriesList
      { s with indexes := dropAll dropNames s.indexes }).1
    hb.1 (hinj _) (hinj _) (fun n => hinj _)
  have hc1 : (create_indexes env (benchLoop env none queriesList
      { s with indexes := dropAll dropNames s.indexes }).1).2.1.closed =
      false := by
    rw [hc]
    exact hb.1
  have ha := benchLoop_spec env none queriesList
    (create_indexes env (benchLoop env none queriesList
      { s with indexes := dropAll dropNames s.indexes }).1).2.1 hc1
  refine ⟨{ s with indexes := dropAll dropNames s.indexes },
    (create_indexes env (benchLoop env none queriesList
      { s with indexes := dropAll dropNames s.indexes }).1).2.1,
    (benchLoop env none queriesList
      (create_indexes env (benchLoop env none queriesList
        { s with indexes := dropAll dropNames s.indexes }).1).2.1).1,
    h, hc1, ha.1, ?_, ?_⟩
  · simp only [demonstrate_queries, hd, hc]
  · simp only [demonstrate_queries, hd, hc]

/-- C5: with no backend index failures, `demonstrate_queries` completes
and the statements it submits are, in order: the five drops, the six
benchmark queries (before phase), the index-creation batch (full-text
drop, full-text create, four property creates), the same six benchmark
queries again (after phase), and the full-text query exactly once with
its parameter mapping, last. -/
theorem demonstrate_queries_phase_order (env : Env) (s : HState)
    (h : s.closed = false) (hinj : ∀ st, env.inj st = none) :
    (demonstrate_queries env s).1 = .ok () ∧
    stmtsOf (demonstrate_queries env s).2.2 =
      dropNames.map Stmt.dropIfExists ++
      queriesList.map (fun nq => Stmt.query nq.2 []) ++
      (Stmt.dropIfExists "book_title_index" ::
        Stmt.createFulltext "book_title_index" ::
        propertyIndexNames.map Stmt.createIfNotExists) ++
      queriesList.map (fun nq => Stmt.query nq.2 []) ++
      [Stmt.query fulltextText fulltextParams] := by
  obtain ⟨s1, s2, s3, h1, h2, h3, hok, htr⟩ :=
    demonstrate_queries_trace env s h hinj
  have hb1 := benchLoop_spec env none queriesList s1 h1
  have hb2 := benchLoop_spec env none queriesList s2 h2
  have hb3 := benchLoop_spec env (some fulltextParams) fulltextQueryList s3 h3
  have hft : stmtsOf
      (benchLoop env (some fulltextParams) fulltextQueryList s3).2 =
      [Stmt.query fulltextText fulltextParams] := by
    rw [hb3.2.2.1]
    simp [fulltextQueryList]
  refine ⟨hok, ?_⟩
  rw [htr]
  simp [stmtsOf_append, stmtsOf_cons_print, stmtsOf_cons_stmt, stmtsOf_nil,
    stmtsOf_dropTrace, stmtsOf_createTrace, hb1.2.2.1, hb2.2.2.1, hft,
    List.append_assoc]

/-- Witness for C5: the benign environment from the initial state. -/
theorem demonstrate_queries_phase_order_witness :
    s0.closed = false ∧ (∀ st, tEnv.inj st = none) ∧
    ((demonstrate_queries tEnv s0).1 = .ok () ∧
     stmtsOf (demonstrate_queries tEnv s0).2.2 =
       dropNames.map Stmt.dropIfExists ++
       queriesList.map (fun nq => Stmt.query nq.2 []) ++
       (Stmt.dropIfExists "book_title_index" ::
         Stmt.createFulltext "book_title_index" ::
         propertyIndexNames.map Stmt.createIfNotExists) ++
       queriesList.map (fun nq => Stmt.query nq.2 []) ++
       [Stmt.query fulltextText fulltextParams]) :=
  ⟨rfl, fun _ => rfl,
   demonstrate_queries_phase_order tEnv s0 rfl (fun _ => rfl)⟩

/-- C6: with no backend index failures, `demonstrate_queries` completes
whatever the backend does with the individual queries: each of the six
queries gets exactly one report line per phase — a timing on success, an
error report on failure — in list order, and the full-text query gets its
report last; a failing query never prevents the remaining reports. -/
theorem demonstrate_queries_per_query_isolation (env : Env) (s : HState)
    (h : s.closed = false) (hinj : ∀ st, env.inj st = none) :
    (demonstrate_queries env s).1 = .ok () ∧
    (demonstrate_queries env s).2.2.filterMap reportOf =
      queriesList.map (fun nq => (okB (env.runQuery nq.2 []), nq.1)) ++
      queriesList.map (fun nq => (okB (env.runQuery nq.2 []), nq.1)) ++
      [(okB (env.runQuery fulltextText fulltextParams),
        "full text search")] := by
  obtain ⟨s1, s2, s3, h1, h2, h3, hok, htr⟩ :=
    demonstrate_queries_trace env s h hinj
  have hb1 := benchLoop_spec env none queriesList s1 h1
  have hb2 := benchLoop_spec env none queriesList s2 h2
  have hb3 := benchLoop_spec env (some fulltextParams) fulltextQueryList s3 h3
  have hft : List.filterMap reportOf
      (benchLoop env (some fulltextParams) fulltextQueryList s3).2 =
      [(okB (env.runQuery fulltextText fulltextParams),
        "full text search")] := by
    rw [hb3.2.2.2]
    simp [fulltextQueryList]
  refine ⟨hok, ?_⟩
  rw [htr]
  simp [List.filterMap_append, reports_cons_print, reports_cons_stmt,
    reports_dropTrace, reports_createTrace, hb1.2.2.2, hb2.2.2.2, hft,
    List.append_assoc]

/-- Witness for C6: an environment where one of the six queries is
malformed; the suite still completes, reporting five timings and one
error in each phase plus the full-text report. -/
theorem demonstrate_queries_per_query_isolation_witness :
    s0.closed = false ∧ (∀ st, tEnvFail.inj st = none) ∧
    ((demonstrate_queries tEnvFail s0).1 = .ok () ∧
     (demonstrate_queries tEnvFail s0).2.2.filterMap reportOf =
       queriesList.map
         (fun nq => (okB (tEnvFail.runQuery nq.2 []), nq.1)) ++
       queriesList.map
         (fun nq => (okB (tEnvFail.runQuery nq.2 []), nq.1)) ++
       [(okB (tEnvFail.runQuery fulltextText fulltextParams),
         "full text search")]) ∧
    (queriesList.map (fun nq => okB (tEnvFail.runQuery nq.2 []))).count
      false = 1 ∧
    (queriesList.map (fun nq => okB (tEnvFail.runQuery nq.2 []))).count
      true = 5 :=
  ⟨rfl, fun _ => rfl,
   demonstrate_queries_per_query_isolation tEnvFail s0 rfl (fun _ => rfl),
   by decide, by decide⟩
